import Mathlib

/-!
Verification of the AI gateway client (GLMService) of CRA AI Assistant V3.0.

The definitions below are a shallow embedding of
`src/main/services/AIService/GLMService.ts` (the current version of the file):
the sliding-window rate limiter, the retry/backoff loop, the JSON
extraction/repair pipeline, and the configuration/singleton logic.
Timestamps and durations are modelled as `Int` milliseconds; JavaScript
strings are modelled as `List Char` / `String`.
-/

-- ============================================================================
-- Rate limiter (class RateLimiter)
-- ============================================================================

/-- Embedding of the `RateLimitConfig` interface. -/
structure RateLimitCfg where
  maxRequests : Nat
  windowMs : Int
deriving DecidableEq, Repr

/-- Embedding of `RateLimiter.waitForSlot` for one sequential call.
State is the `requests` timestamp array; `now` is `Date.now()` at entry.
The function filters out timestamps at or before `now - windowMs`; if the
remaining count is at or above `maxRequests` it sleeps `oldest + windowMs - now`
ms (when positive), so the recorded admission time is `oldest + windowMs`;
otherwise the call is admitted at `now`.  Returns (admission time, new state).
`headD 0` mirrors `this.requests[0]`, which is only read when the filtered
list is nonempty (for any positive ceiling). -/
def waitForSlot (cfg : RateLimitCfg) (requests : List Int) (now : Int) : Int × List Int :=
  let reqs := requests.filter (fun t => decide (now - cfg.windowMs < t))
  if cfg.maxRequests ≤ reqs.length then
    let oldest := reqs.headD 0
    let waitTime := oldest + cfg.windowMs - now
    let grantTime := if 0 < waitTime then now + waitTime else now
    (grantTime, reqs ++ [grantTime])
  else
    (now, reqs ++ [now])

/-- Sequential driver: each entry of `gaps` is the (non-negative) time between
the previous call's return and the next call's arrival.  Returns the list of
admission timestamps.  Sequentiality (the next call starts no earlier than the
previous admission) is exactly what `clock` threads through. -/
def runRL (cfg : RateLimitCfg) (requests : List Int) (clock : Int) : List Nat → List Int
  | [] => []
  | g :: gs =>
    let s := waitForSlot cfg requests (clock + (g : Int))
    s.1 :: runRL cfg s.2 s.1 gs

/-- Membership of timestamp `h` in the trailing window `(t - W, t]`. -/
def inWindow (W t h : Int) : Bool := decide (t - W < h) && decide (h ≤ t)

/-- Number of timestamps of `H` lying in the trailing window `(t - W, t]`. -/
def winCount (W t : Int) (H : List Int) : Nat := H.countP (inWindow W t)

/-- Invariant tying the limiter state `requests` to the history `H` of all
admissions so far: the state is a suffix of the history, everything dropped
from the state has already left every future window, the state is sorted,
all admissions are in the past, and no trailing window holds more than
`maxRequests` admissions. -/
def RLInv (cfg : RateLimitCfg) (clock : Int) (requests H : List Int) : Prop :=
  (∃ P, H = P ++ requests ∧ ∀ p ∈ P, p ≤ clock - cfg.windowMs) ∧
  List.Pairwise (· ≤ ·) requests ∧
  (∀ h ∈ H, h ≤ clock) ∧
  (∀ t : Int, winCount cfg.windowMs t H ≤ cfg.maxRequests)

lemma sorted_filter_decomp (θ : Int) :
    ∀ l : List Int, List.Pairwise (· ≤ ·) l →
      ∃ D, l = D ++ l.filter (fun h => decide (θ < h)) ∧ ∀ d ∈ D, d ≤ θ := by
  intro l hl
  induction l with
  | nil => exact ⟨[], rfl, by simp⟩
  | cons a t ih =>
    rcases List.pairwise_cons.mp hl with ⟨hat, ht⟩
    by_cases ha : θ < a
    · refine ⟨[], ?_, by simp⟩
      have : ∀ x ∈ a :: t, (fun h => decide (θ < h)) x = true := by
        intro x hx
        rcases List.mem_cons.mp hx with h | h
        · simpa [h] using ha
        · have := hat x h
          simp only [decide_eq_true_eq]
          omega
      simpa using (List.filter_eq_self.mpr this).symm
    · obtain ⟨D, hD, hDle⟩ := ih ht
      refine ⟨a :: D, ?_, ?_⟩
      · have hfa : (fun h => decide (θ < h)) a = false := by simpa using ha
        simp only [List.filter_cons, hfa]
        simpa using hD
      · intro d hd
        rcases List.mem_cons.mp hd with h | h
        · omega
        · exact hDle d h

lemma waitForSlot_inv (cfg : RateLimitCfg) (hN : 1 ≤ cfg.maxRequests)
    (clock now : Int) (hcn : clock ≤ now) (requests H : List Int)
    (hinv : RLInv cfg clock requests H) :
    clock ≤ (waitForSlot cfg requests now).1 ∧
      RLInv cfg (waitForSlot cfg requests now).1 (waitForSlot cfg requests now).2
        (H ++ [(waitForSlot cfg requests now).1]) := by
  obtain ⟨⟨P, hH, hP⟩, hsort, hbound, hwin⟩ := hinv
  obtain ⟨D, hD, hDle⟩ := sorted_filter_decomp (now - cfg.windowMs) requests hsort
  set reqs := requests.filter (fun t => decide (now - cfg.windowMs < t)) with hreqs
  have hreqsub : reqs.Sublist requests := List.filter_sublist requests
  have hsubH : requests.Sublist H := by
    rw [hH]; exact List.sublist_append_right P requests
  have hreqmemH : ∀ x ∈ reqs, x ∈ H := fun x hx => hsubH.mem (hreqsub.mem hx)
  have hreqclock : ∀ x ∈ reqs, x ≤ clock := fun x hx => hbound x (hreqmemH x hx)
  have hreqpred : ∀ x ∈ reqs, now - cfg.windowMs < x := by
    intro x hx
    rw [hreqs] at hx
    simpa using (List.mem_filter.mp hx).2
  have hreqsort : List.Pairwise (· ≤ ·) reqs := List.Pairwise.sublist hreqsub hsort
  have hsplit : ∀ t : Int, H.countP (inWindow cfg.windowMs t) =
      P.countP (inWindow cfg.windowMs t) + (D.countP (inWindow cfg.windowMs t) +
        reqs.countP (inWindow cfg.windowMs t)) := by
    intro t
    rw [hH, hD]
    simp [List.countP_append]
  by_cases hlim : cfg.maxRequests ≤ reqs.length
  · -- at or above the ceiling: wait until the oldest timestamp expires
    have hne : reqs ≠ [] := by
      intro h
      rw [h] at hlim
      simp at hlim
      omega
    obtain ⟨o, tail, hr⟩ := List.exists_cons_of_ne_nil hne
    have homem : o ∈ reqs := by rw [hr]; exact List.mem_cons_self o tail
    have hoclock : o ≤ clock := hreqclock o homem
    have hopred : now - cfg.windowMs < o := hreqpred o homem
    have hws : waitForSlot cfg requests now = (o + cfg.windowMs, reqs ++ [o + cfg.windowMs]) := by
      simp only [waitForSlot]
      rw [← hreqs, if_pos hlim, hr]
      simp only [List.headD_cons]
      rw [if_pos (by omega : (0:Int) < o + cfg.windowMs - now)]
      have harith : now + (o + cfg.windowMs - now) = o + cfg.windowMs := by omega
      rw [harith]
    rw [hws]
    have hreqlen : reqs.length ≤ cfg.maxRequests := by
      have hall : ∀ x ∈ reqs, inWindow cfg.windowMs now x = true := by
        intro x hx
        have h1 := hreqpred x hx
        have h2 := hreqclock x hx
        simp only [inWindow, Bool.and_eq_true, decide_eq_true_eq]
        omega
      have h1 : reqs.countP (inWindow cfg.windowMs now) = reqs.length :=
        List.countP_eq_length.mpr hall
      have h2 : reqs.countP (inWindow cfg.windowMs now) ≤ H.countP (inWindow cfg.windowMs now) :=
        List.Sublist.countP_le _ (hreqsub.trans hsubH)
      have h3 := hwin now
      simp only [winCount] at h3
      omega
    refine ⟨by omega, ⟨P ++ D, ?_, ?_⟩, ?_, ?_, ?_⟩
    · rw [hH, hD]
      simp [List.append_assoc]
    · intro p hp
      rcases List.mem_append.mp hp with h | h
      · have := hP p h; omega
      · have := hDle p h; omega
    · rw [List.pairwise_append]
      refine ⟨hreqsort, by simp, ?_⟩
      intro x hx y hy
      have hx1 := hreqclock x hx
      simp only [List.mem_singleton] at hy
      omega
    · intro h hh
      rcases List.mem_append.mp hh with h1 | h1
      · have := hbound h h1; omega
      · simp only [List.mem_singleton] at h1; omega
    · intro t
      simp only [winCount, List.countP_append]
      by_cases hin : inWindow cfg.windowMs t (o + cfg.windowMs) = true
      · have hin2 : t - cfg.windowMs < o + cfg.windowMs ∧ o + cfg.windowMs ≤ t := by
          simpa [inWindow, Bool.and_eq_true, decide_eq_true_eq] using hin
        have hPzero : P.countP (inWindow cfg.windowMs t) = 0 := by
          refine List.countP_eq_zero.mpr ?_
          intro p hp
          have := hP p hp
          simp only [inWindow, Bool.and_eq_true, decide_eq_true_eq]
          omega
        have hDzero : D.countP (inWindow cfg.windowMs t) = 0 := by
          refine List.countP_eq_zero.mpr ?_
          intro d hd
          have := hDle d hd
          simp only [inWindow, Bool.and_eq_true, decide_eq_true_eq]
          omega
        have hreqcnt : reqs.countP (inWindow cfg.windowMs t) + 1 ≤ reqs.length := by
          have ho : inWindow cfg.windowMs t o = false := by
            have hne2 : ¬ inWindow cfg.windowMs t o = true := by
              simp only [inWindow, Bool.and_eq_true, decide_eq_true_eq]
              omega
            exact Bool.eq_false_iff.mpr hne2
          rw [hr, List.countP_cons, ho]
          simp only [Bool.false_eq_true, if_false]
          have := List.countP_le_length (inWindow cfg.windowMs t) (l := tail)
          simp only [List.length_cons]
          omega
        have hone : List.countP (inWindow cfg.windowMs t) [o + cfg.windowMs] ≤ 1 :=
          List.countP_le_length _
        have := hsplit t
        omega
      · have hzero : List.countP (inWindow cfg.windowMs t) [o + cfg.windowMs] = 0 := by
          simp only [List.countP_cons, List.countP_nil]
          simp only [Bool.not_eq_true] at hin
          simp [hin]
        rw [hzero]
        have := hwin t
        simpa [winCount] using this
  · -- below the ceiling: the call proceeds immediately at `now`
    have hws : waitForSlot cfg requests now = (now, reqs ++ [now]) := by
      simp only [waitForSlot]
      rw [← hreqs, if_neg hlim]
    rw [hws]
    refine ⟨hcn, ⟨P ++ D, ?_, ?_⟩, ?_, ?_, ?_⟩
    · rw [hH, hD]
      simp [List.append_assoc]
    · intro p hp
      rcases List.mem_append.mp hp with h | h
      · have := hP p h; omega
      · have := hDle p h; omega
    · rw [List.pairwise_append]
      refine ⟨hreqsort, by simp, ?_⟩
      intro x hx y hy
      have hx1 := hreqclock x hx
      simp only [List.mem_singleton] at hy
      omega
    · intro h hh
      rcases List.mem_append.mp hh with h1 | h1
      · have := hbound h h1; omega
      · simp only [List.mem_singleton] at h1; omega
    · intro t
      simp only [winCount, List.countP_append]
      by_cases hin : inWindow cfg.windowMs t now = true
      · have hin2 : t - cfg.windowMs < now ∧ now ≤ t := by
          simpa [inWindow, Bool.and_eq_true, decide_eq_true_eq] using hin
        have hPzero : P.countP (inWindow cfg.windowMs t) = 0 := by
          refine List.countP_eq_zero.mpr ?_
          intro p hp
          have := hP p hp
          simp only [inWindow, Bool.and_eq_true, decide_eq_true_eq]
          omega
        have hDzero : D.countP (inWindow cfg.windowMs t) = 0 := by
          refine List.countP_eq_zero.mpr ?_
          intro d hd
          have := hDle d hd
          simp only [inWindow, Bool.and_eq_true, decide_eq_true_eq]
          omega
        have hreqcnt : reqs.countP (inWindow cfg.windowMs t) ≤ reqs.length :=
          List.countP_le_length _
        have hone : List.countP (inWindow cfg.windowMs t) [now] ≤ 1 :=
          List.countP_le_length _
        have := hsplit t
        omega
      · have hzero : List.countP (inWindow cfg.windowMs t) [now] = 0 := by
          simp only [List.countP_cons, List.countP_nil]
          simp only [Bool.not_eq_true] at hin
          simp [hin]
        rw [hzero]
        have := hwin t
        simpa [winCount] using this

lemma runRL_winCount (cfg : RateLimitCfg) (hN : 1 ≤ cfg.maxRequests) :
    ∀ (gaps : List Nat) (requests H : List Int) (clock : Int),
      RLInv cfg clock requests H →
      ∀ t : Int, winCount cfg.windowMs t (H ++ runRL cfg requests clock gaps) ≤ cfg.maxRequests := by
  intro gaps
  induction gaps with
  | nil =>
    intro requests H clock hinv t
    simpa [runRL] using hinv.2.2.2 t
  | cons g gs ih =>
    intro requests H clock hinv t
    have hstep := waitForSlot_inv cfg hN clock (clock + (g : Int)) (by omega)
      requests H hinv
    have := ih (waitForSlot cfg requests (clock + (g : Int))).2
      (H ++ [(waitForSlot cfg requests (clock + (g : Int))).1])
      (waitForSlot cfg requests (clock + (g : Int))).1 hstep.2 t
    simpa [runRL, List.append_assoc] using this

lemma runRL_length (cfg : RateLimitCfg) :
    ∀ (gaps : List Nat) (requests : List Int) (clock : Int),
      (runRL cfg requests clock gaps).length = gaps.length := by
  intro gaps
  induction gaps with
  | nil => intro requests clock; simp [runRL]
  | cons g gs ih => intro requests clock; simp [runRL, ih]

lemma waitForSlot_at_limit (cfg : RateLimitCfg) (requests : List Int) (now : Int)
    (hlim : cfg.maxRequests ≤ (requests.filter (fun t => decide (now - cfg.windowMs < t))).length)
    (hold : now - cfg.windowMs < (requests.filter (fun t => decide (now - cfg.windowMs < t))).headD 0) :
    (waitForSlot cfg requests now).1 =
      (requests.filter (fun t => decide (now - cfg.windowMs < t))).headD 0 + cfg.windowMs := by
  simp only [waitForSlot]
  rw [if_pos hlim]
  rw [if_pos (by omega :
    (0:Int) < (requests.filter (fun t => decide (now - cfg.windowMs < t))).headD 0 +
      cfg.windowMs - now)]
  omega

/-- C1: starting from an empty window, any sequence of sequential calls to
`waitForSlot` (ceiling `N ≥ 1`, window 60000 ms) admits at most `N` calls in
any trailing 60000 ms interval; every call is admitted (none rejected); and a
call arriving when the window already holds at least `N` timestamps is
admitted exactly when the oldest recorded timestamp leaves the window, at
`oldest + 60000` (i.e. after a wait of `oldest + 60000 - now`). -/
theorem rate_limiter_window_bound (N : Nat) (hN : 1 ≤ N) (start : Int) (gaps : List Nat) :
    (∀ t : Int, winCount 60000 t (runRL ⟨N, 60000⟩ [] start gaps) ≤ N) ∧
    (runRL ⟨N, 60000⟩ [] start gaps).length = gaps.length ∧
    (∀ (requests : List Int) (now : Int),
      N ≤ (requests.filter (fun h => decide (now - 60000 < h))).length →
      now - 60000 < (requests.filter (fun h => decide (now - 60000 < h))).headD 0 →
      (waitForSlot ⟨N, 60000⟩ requests now).1 =
        (requests.filter (fun h => decide (now - 60000 < h))).headD 0 + 60000) := by
  refine ⟨?_, runRL_length _ _ _ _, ?_⟩
  · intro t
    have hinv : RLInv ⟨N, 60000⟩ start [] [] := by
      refine ⟨⟨[], rfl, by simp⟩, by simp, by simp, ?_⟩
      intro t2
      simp [winCount]
    have := runRL_winCount ⟨N, 60000⟩ hN gaps [] [] start hinv t
    simpa using this
  · intro requests now h1 h2
    exact waitForSlot_at_limit ⟨N, 60000⟩ requests now h1 h2

theorem rate_limiter_window_bound_witness :
    1 ≤ 60 ∧ (∀ t : Int, winCount 60000 t (runRL ⟨60, 60000⟩ [] 0 [0, 0, 0]) ≤ 60) :=
  ⟨by decide, (rate_limiter_window_bound 60 (by decide) 0 [0, 0, 0]).1⟩

-- ============================================================================
-- Character-level string utilities (JavaScript string operations)
-- ============================================================================

/-- ASCII portion of the JavaScript regex whitespace class `\s`
(space, tab, line feed, carriage return, vertical tab, form feed). -/
def isWsChar (c : Char) : Bool :=
  c = ' ' || c = '\t' || c = '\n' || c = '\r' || c.toNat = 11 || c.toNat = 12

/-- Count of occurrences of character `c`, as in `(s.match(re) || []).length`
for a single-character global regex. -/
def countChar (c : Char) (l : List Char) : Nat := l.countP (fun x => x = c)

/-- Index of the last occurrence of `c` (JavaScript `lastIndexOf`, with
`none` standing for `-1`). -/
def lastIndexOfChar (c : Char) : List Char → Option Nat
  | [] => none
  | x :: rest =>
    match lastIndexOfChar c rest with
    | some i => some (i + 1)
    | none => if x = c then some 0 else none

/-- Index of the first occurrence of `c` (JavaScript `indexOf`). -/
def firstIndexOfChar (c : Char) : List Char → Option Nat
  | [] => none
  | x :: rest => if x = c then some 0 else (firstIndexOfChar c rest).map (· + 1)

/-- Whether `pat` is a prefix of `l`. -/
def startsWithChars : List Char → List Char → Bool
  | [], _ => true
  | _ :: _, [] => false
  | p :: ps, c :: cs => p = c && startsWithChars ps cs

/-- Split `l` at the first occurrence of the infix `pat`, returning the part
before the occurrence and the part after it. -/
def splitAtFirstInfix (pat : List Char) : List Char → Option (List Char × List Char)
  | [] => if pat.isEmpty then some ([], []) else none
  | c :: rest =>
    if startsWithChars pat (c :: rest) then some ([], (c :: rest).drop pat.length)
    else (splitAtFirstInfix pat rest).map (fun p => (c :: p.1, p.2))

/-- Substring containment (JavaScript `String.prototype.includes`). -/
def containsSub (s sub : String) : Bool :=
  decide (sub.data <:+: s.data)

/-- Strip leading and trailing `\s` characters (effect of the greedy/lazy
`\s*(...)\s*` groups in the code-fence regexes). -/
def trimChars (l : List Char) : List Char :=
  ((l.dropWhile isWsChar).reverse.dropWhile isWsChar).reverse

-- ============================================================================
-- fixIncompleteJSON (GLMService.fixIncompleteJSON)
-- ============================================================================

/-- Lookahead used by the regex `,(\s*[}\]])`: after a comma, optional
whitespace and then a closing brace or bracket. -/
def isCloserAfterWs (l : List Char) : Bool :=
  match l.dropWhile isWsChar with
  | c :: _ => c = '}' || c = ']'
  | [] => false

/-- Step 1 of fixIncompleteJSON: `fixed.replace(/,(\s*[}\]])/g, '$1')`.
The global replace deletes exactly those commas that are followed by optional
whitespace and a closing brace/bracket (match spans contain no further
commas, so matches are the qualifying commas themselves). -/
def dropCommasBeforeClosers : List Char → List Char
  | [] => []
  | c :: rest =>
    if c = ',' && isCloserAfterWs rest then dropCommasBeforeClosers rest
    else c :: dropCommasBeforeClosers rest

/-- Step 2 of fixIncompleteJSON: if the number of quote characters is odd,
truncate just after the last quote and append a closing quote (the inner
`lastKeyStart` guard requires a second-to-last quote to exist). -/
def closeDanglingString (l : List Char) : List Char :=
  if countChar '"' l % 2 = 1 then
    match lastIndexOfChar '"' l with
    | some lastQuoteIndex =>
      match lastIndexOfChar '"' (l.take lastQuoteIndex) with
      | some lastKeyStart =>
        if lastKeyStart < lastQuoteIndex then l.take (lastQuoteIndex + 1) ++ ['"']
        else l
      | none => l
    | none => l
  else l

/-- Tail check for the end-anchored part `[^,}\]]*$` of the step-3 regex. -/
def tailFreeOfClosers (l : List Char) : Bool :=
  l.all (fun c => !(c = ',' || c = '}' || c = ']'))

/-- Matcher for `[^"]*:\s*[^,}\]]*$` after the opening quote of the step-3
regex (with backtracking: any colon may end the `[^"]*` group provided the
rest of the string avoids `,`, `}` and `]`; `\s` is itself in `[^,}\]]`). -/
def colonThenClean : List Char → Bool
  | [] => false
  | c :: rest =>
    if c = '"' then false
    else if c = ':' && tailFreeOfClosers rest then true
    else colonThenClean rest

/-- Matcher for `\s*"` then `colonThenClean`, after the leading comma of the
step-3 regex. -/
def step3AfterComma (l : List Char) : Bool :=
  match l.dropWhile isWsChar with
  | '"' :: rest => colonThenClean rest
  | _ => false

/-- Whether the step-3 regex `,\s*"[^"]*:\s*[^,}\]]*$` matches starting at
the head of `l` (and hence extends to the end of the string). -/
def step3MatchAt : List Char → Bool
  | ',' :: rest => step3AfterComma rest
  | _ => false

/-- Step 3 of fixIncompleteJSON: `fixed.replace(/,\s*"[^"]*:\s*[^,}\]]*$/, '')`.
The leftmost match extends to the end of the string, so the replace keeps the
prefix before it. -/
def dropTrailingIncompletePair : List Char → List Char
  | [] => []
  | c :: rest =>
    if step3MatchAt (c :: rest) then []
    else c :: dropTrailingIncompletePair rest

/-- Step 4 of fixIncompleteJSON: count unmatched `[`/`{` and append the
missing closers, brackets before braces.  The JS `for` loops run zero times
on a negative difference, which truncated `Nat` subtraction mirrors. -/
def appendMissingClosers (l : List Char) : List Char :=
  l ++ List.replicate (countChar '[' l - countChar ']' l) ']'
    ++ List.replicate (countChar '{' l - countChar '}' l) '}'

/-- Embedding of `GLMService.fixIncompleteJSON` on character lists. -/
def fixIncompleteJSONChars (l : List Char) : List Char :=
  appendMissingClosers (dropTrailingIncompletePair (closeDanglingString (dropCommasBeforeClosers l)))

/-- Embedding of `GLMService.fixIncompleteJSON`. -/
def fixIncompleteJSON (s : String) : String :=
  String.mk (fixIncompleteJSONChars s.data)

-- ============================================================================
-- Strict JSON values and JSON.parse
-- ============================================================================

/-- JSON values as produced by `JSON.parse`.  Numeric literals are kept as
their source token (the claims under verification never depend on float
conversion); object fields are kept in source order, duplicates included. -/
inductive JSON where
  | null
  | bool (b : Bool)
  | num (lit : String)
  | str (s : String)
  | arr (items : List JSON)
  | obj (fields : List (String × JSON))

/-- JSON-grammar whitespace skipper (space, tab, line feed, carriage return). -/
def jsonWs (l : List Char) : List Char :=
  l.dropWhile (fun c => c = ' ' || c = '\t' || c = '\n' || c = '\r')

/-- Value of a hexadecimal digit. -/
def hexVal (c : Char) : Option Nat :=
  if '0' ≤ c && c ≤ '9' then some (c.toNat - 48)
  else if 'a' ≤ c && c ≤ 'f' then some (c.toNat - 87)
  else if 'A' ≤ c && c ≤ 'F' then some (c.toNat - 55)
  else none

/-- Body of a JSON string literal after the opening quote: returns the
decoded characters and the remainder after the closing quote.  Unescaped
control characters and invalid escapes are rejected, as in strict JSON. -/
def parseStringBody : List Char → Option (List Char × List Char)
  | [] => none
  | '"' :: rest => some ([], rest)
  | '\\' :: 'u' :: a :: b :: c :: d :: rest =>
    match hexVal a, hexVal b, hexVal c, hexVal d with
    | some va, some vb, some vc, some vd =>
      (parseStringBody rest).map
        (fun p => (Char.ofNat (((va * 16 + vb) * 16 + vc) * 16 + vd) :: p.1, p.2))
    | _, _, _, _ => none
  | '\\' :: e :: rest =>
    match
      (if e = '"' then some '"'
       else if e = '\\' then some '\\'
       else if e = '/' then some '/'
       else if e = 'b' then some (Char.ofNat 8)
       else if e = 'f' then some (Char.ofNat 12)
       else if e = 'n' then some '\n'
       else if e = 'r' then some '\r'
       else if e = 't' then some '\t'
       else none) with
    | some ec => (parseStringBody rest).map (fun p => (ec :: p.1, p.2))
    | none => none
  | c :: rest =>
    if c.toNat < 32 then none
    else (parseStringBody rest).map (fun p => (c :: p.1, p.2))

/-- Optional fraction part `.digits` of a JSON number token. -/
def parseFracPart : List Char → Option (List Char × List Char)
  | '.' :: r =>
    let ds := r.takeWhile Char.isDigit
    if ds.isEmpty then none else some ('.' :: ds, r.dropWhile Char.isDigit)
  | l => some ([], l)

/-- Optional exponent part `(e|E)(+|-)?digits` of a JSON number token. -/
def parseExpPart : List Char → Option (List Char × List Char)
  | [] => some ([], [])
  | e :: r =>
    if e = 'e' || e = 'E' then
      let (sgn, r1) : List Char × List Char :=
        match r with
        | '+' :: r2 => (['+'], r2)
        | '-' :: r2 => (['-'], r2)
        | _ => ([], r)
      let ds := r1.takeWhile Char.isDigit
      if ds.isEmpty then none else some (e :: (sgn ++ ds), r1.dropWhile Char.isDigit)
    else some ([], e :: r)

/-- JSON number token (strict grammar: optional minus, `0` or nonzero-led
digits, optional fraction, optional exponent). -/
def parseNumberToken (l : List Char) : Option (List Char × List Char) :=
  let (sign, l1) : List Char × List Char :=
    match l with
    | '-' :: r => (['-'], r)
    | _ => ([], l)
  match l1 with
  | [] => none
  | c :: r =>
    if c = '0' then
      match parseFracPart r with
      | none => none
      | some (f, r2) =>
        match parseExpPart r2 with
        | none => none
        | some (ex, r3) => some (sign ++ ['0'] ++ f ++ ex, r3)
    else if c.isDigit then
      let ds := r.takeWhile Char.isDigit
      match parseFracPart (r.dropWhile Char.isDigit) with
      | none => none
      | some (f, r2) =>
        match parseExpPart r2 with
        | none => none
        | some (ex, r3) => some (sign ++ (c :: ds) ++ f ++ ex, r3)
    else none

mutual

/-- Strict JSON value parser (the grammar accepted by `JSON.parse`), with a
fuel argument for termination; `jsonParse` supplies sufficient fuel. -/
def parseVal : Nat → List Char → Option (JSON × List Char)
  | 0, _ => none
  | fuel + 1, l =>
    match jsonWs l with
    | [] => none
    | '{' :: rest =>
      match jsonWs rest with
      | '}' :: rest2 => some (.obj [], rest2)
      | _ => (parseMembers fuel rest).map (fun p => (JSON.obj p.1, p.2))
    | '[' :: rest =>
      match jsonWs rest with
      | ']' :: rest2 => some (.arr [], rest2)
      | _ => (parseItems fuel rest).map (fun p => (JSON.arr p.1, p.2))
    | '"' :: rest => (parseStringBody rest).map (fun p => (JSON.str (String.mk p.1), p.2))
    | 't' :: 'r' :: 'u' :: 'e' :: rest => some (.bool true, rest)
    | 'f' :: 'a' :: 'l' :: 's' :: 'e' :: rest => some (.bool false, rest)
    | 'n' :: 'u' :: 'l' :: 'l' :: rest => some (.null, rest)
    | c :: rest =>
      if c = '-' || c.isDigit then
        (parseNumberToken (c :: rest)).map (fun p => (JSON.num (String.mk p.1), p.2))
      else none

/-- One-or-more object members `"key": value` separated by commas, up to and
including the closing brace (strict: no trailing comma). -/
def parseMembers : Nat → List Char → Option (List (String × JSON) × List Char)
  | 0, _ => none
  | fuel + 1, l =>
    match jsonWs l with
    | '"' :: rest =>
      match parseStringBody rest with
      | none => none
      | some (key, rest2) =>
        match jsonWs rest2 with
        | ':' :: rest3 =>
          match parseVal fuel rest3 with
          | none => none
          | some (v, rest4) =>
            match jsonWs rest4 with
            | ',' :: rest5 =>
              (parseMembers fuel rest5).map (fun p => ((String.mk key, v) :: p.1, p.2))
            | '}' :: rest5 => some ([(String.mk key, v)], rest5)
            | _ => none
        | _ => none
    | _ => none

/-- One-or-more array items separated by commas, up to and including the
closing bracket (strict: no trailing comma). -/
def parseItems : Nat → List Char → Option (List JSON × List Char)
  | 0, _ => none
  | fuel + 1, l =>
    match parseVal fuel l with
    | none => none
    | some (v, rest) =>
      match jsonWs rest with
      | ',' :: rest2 => (parseItems fuel rest2).map (fun p => (v :: p.1, p.2))
      | ']' :: rest2 => some ([v], rest2)
      | _ => none

end

/-- Embedding of `JSON.parse`: `none` models a thrown `SyntaxError`. -/
def jsonParse (s : String) : Option JSON :=
  match parseVal (s.data.length + 1) s.data with
  | some (v, rest) => if (jsonWs rest).isEmpty then some v else none
  | none => none

-- ============================================================================
-- Error taxonomy (createError / Result from @shared/types/core)
-- ============================================================================

/-- Embedding of `ErrorCategory`. -/
inductive ErrCategory where
  | domain
  | infrastructure
  | ui
  | network
deriving DecidableEq, Repr

/-- Embedding of `ErrorSeverity`. -/
inductive ErrSeverity where
  | critical
  | warning
  | info
deriving DecidableEq, Repr

/-- Embedding of `AppError` as built by `createError` (the timestamp and the
free-form context record are omitted: no claim depends on them). -/
structure AppErr where
  code : String
  category : ErrCategory
  severity : ErrSeverity
  userMessage : String
  technicalMessage : String
deriving DecidableEq, Repr

/-- Embedding of the `Result` tagged union. -/
inductive Res (α : Type) where
  | ok (data : α)
  | err (e : AppErr)

-- ============================================================================
-- parseJSONResponse (extraction of the JSON payload, then parse and repair)
-- ============================================================================

/-- Characters of the opening fence `(three backticks)json`. -/
def fenceJsonPat : List Char := ("```json").data

/-- Characters of a bare three-backtick fence. -/
def fencePat : List Char := ("```").data

/-- Content of the first fenced block opened by `pat` and closed by a bare
fence, trimmed of surrounding whitespace; `none` when the regex does not
match (no opening fence, or no closing fence anywhere after it). -/
def extractFenced (pat : List Char) (l : List Char) : Option (List Char) :=
  match splitAtFirstInfix pat l with
  | none => none
  | some (_, aft) =>
    match splitAtFirstInfix fencePat aft with
    | none => none
    | some (inner, _) => some (trimChars inner)

/-- Match of the regex `\{[\s\S]*\}`: from the first opening brace to the
last closing brace at or after it. -/
def objectSpan (l : List Char) : Option (List Char) :=
  match firstIndexOfChar '{' l, lastIndexOfChar '}' l with
  | some i, some j => if i ≤ j then some ((l.drop i).take (j - i + 1)) else none
  | _, _ => none

/-- Payload selection of `parseJSONResponse`: a ```json fence, else a bare
fence, else the first-to-last brace span, else the raw response. -/
def extractJSONChars (l : List Char) : List Char :=
  match extractFenced fenceJsonPat l with
  | some inner => inner
  | none =>
    match extractFenced fencePat l with
    | some inner => inner
    | none =>
      match objectSpan l with
      | some span => span
      | none => l

/-- Error built by `parseJSONResponse` when both parse attempts fail.  The
real `technicalMessage` carries the JS `SyntaxError` text, modelled here by a
fixed placeholder. -/
def parseFailedErr : AppErr :=
  ⟨"AI_PARSE_FAILED", .domain, .critical,
    "AI响应解析失败，返回的JSON格式不完整或有错误", "Failed to parse JSON"⟩

/-- Embedding of `GLMService.parseJSONResponse`: extract the payload, try a
strict parse, on failure repair with `fixIncompleteJSON` and retry, and
otherwise report `AI_PARSE_FAILED`. -/
def parseJSONResponseM (response : String) : Res JSON :=
  let jsonStr := extractJSONChars response.data
  match jsonParse (String.mk jsonStr) with
  | some v => .ok v
  | none =>
    match jsonParse (String.mk (fixIncompleteJSONChars jsonStr)) with
    | some v => .ok v
    | none => .err parseFailedErr

/-- C2: on the truncated input from the spec scenario the repair pass leaves
the comma exposed by the truncation in place (trailing commas are removed
before the missing closers are appended), so the repaired text
`{"a": 1, "b": [1, 2,]}` is still rejected by strict JSON parsing and
`parseJSONResponse` returns `AI_PARSE_FAILED` instead of an Ok result. -/
theorem truncated_array_repair_still_fails :
    fixIncompleteJSON ("\x7b\"a\": 1, \"b\": [1, 2,") = "\x7b\"a\": 1, \"b\": [1, 2,]\x7d" ∧
    jsonParse ("\x7b\"a\": 1, \"b\": [1, 2,]\x7d") = none ∧
    parseJSONResponseM ("\x7b\"a\": 1, \"b\": [1, 2,") = .err parseFailedErr ∧
    parseFailedErr.code = "AI_PARSE_FAILED" :=
  ⟨rfl, rfl, rfl, rfl⟩

/-- C3 (counterexample): `{"a": ",]"}` is valid JSON, yet `fixIncompleteJSON`
deletes the comma inside the string literal, returning `{"a": "]"}`, which
parses to a different value. -/
theorem fix_corrupts_valid_json_counterexample :
    jsonParse ("\x7b\"a\": \",]\"\x7d") = some (JSON.obj [("a", JSON.str (",]"))]) ∧
    fixIncompleteJSON ("\x7b\"a\": \",]\"\x7d") = "\x7b\"a\": \"]\"\x7d" ∧
    jsonParse ("\x7b\"a\": \"]\"\x7d") = some (JSON.obj [("a", JSON.str ("]"))]) ∧
    JSON.obj [("a", JSON.str (",]"))] ≠ JSON.obj [("a", JSON.str ("]"))] := by
  refine ⟨rfl, rfl, rfl, ?_⟩
  intro h
  simp at h

/-- Scanner deciding whether some comma of `l` is followed by optional
whitespace and a closing brace/bracket (the trigger of repair step 1). -/
def hasCommaBeforeCloser : List Char → Bool
  | [] => false
  | c :: rest => (c = ',' && isCloserAfterWs rest) || hasCommaBeforeCloser rest

/-- Scanner deciding whether the step-3 regex matches anywhere (its matches
always reach the end of the string). -/
def hasTrailingIncompletePair : List Char → Bool
  | [] => false
  | c :: rest => step3MatchAt (c :: rest) || hasTrailingIncompletePair rest

lemma dropCommasBeforeClosers_eq_self (l : List Char)
    (h : hasCommaBeforeCloser l = false) : dropCommasBeforeClosers l = l := by
  induction l with
  | nil => rfl
  | cons c rest ih =>
    simp only [hasCommaBeforeCloser, Bool.or_eq_false_iff] at h
    simp [dropCommasBeforeClosers, h.1, ih h.2]

lemma closeDanglingString_eq_self (l : List Char)
    (h : countChar '"' l % 2 = 0) : closeDanglingString l = l := by
  rw [closeDanglingString, if_neg (by omega)]

lemma dropTrailingIncompletePair_eq_self (l : List Char)
    (h : hasTrailingIncompletePair l = false) : dropTrailingIncompletePair l = l := by
  induction l with
  | nil => rfl
  | cons c rest ih =>
    simp only [hasTrailingIncompletePair, Bool.or_eq_false_iff] at h
    simp [dropTrailingIncompletePair, h.1, ih h.2]

lemma appendMissingClosers_eq_self (l : List Char)
    (h4 : countChar '[' l ≤ countChar ']' l)
    (h5 : countChar '{' l ≤ countChar '}' l) : appendMissingClosers l = l := by
  rw [appendMissingClosers, Nat.sub_eq_zero_of_le h4, Nat.sub_eq_zero_of_le h5]
  simp

/-- C3 (amended): `fixIncompleteJSON` returns its input unchanged (hence
reparsing to the same value) for every string in which no comma is followed
by optional whitespace and a closing brace/bracket, the number of quote
characters is even, the trailing-incomplete-pair pattern does not match, and
opening brackets/braces do not outnumber closing ones — in particular for
valid JSON whose string literals avoid these patterns.  On general valid
JSON the claim fails (see the counterexample). -/
theorem fix_identity_on_benign_strings (s : String)
    (h1 : hasCommaBeforeCloser s.data = false)
    (h2 : countChar '"' s.data % 2 = 0)
    (h3 : hasTrailingIncompletePair s.data = false)
    (h4 : countChar '[' s.data ≤ countChar ']' s.data)
    (h5 : countChar '{' s.data ≤ countChar '}' s.data) :
    fixIncompleteJSON s = s := by
  unfold fixIncompleteJSON fixIncompleteJSONChars
  rw [dropCommasBeforeClosers_eq_self _ h1, closeDanglingString_eq_self _ h2,
    dropTrailingIncompletePair_eq_self _ h3, appendMissingClosers_eq_self _ h4 h5]

theorem fix_identity_on_benign_strings_witness :
    (hasCommaBeforeCloser ("\x7b\"a\": [1, 2]\x7d").data = false ∧
     countChar '"' ("\x7b\"a\": [1, 2]\x7d").data % 2 = 0 ∧
     hasTrailingIncompletePair ("\x7b\"a\": [1, 2]\x7d").data = false ∧
     countChar '[' ("\x7b\"a\": [1, 2]\x7d").data ≤ countChar ']' ("\x7b\"a\": [1, 2]\x7d").data ∧
     countChar '{' ("\x7b\"a\": [1, 2]\x7d").data ≤ countChar '}' ("\x7b\"a\": [1, 2]\x7d").data) ∧
    fixIncompleteJSON ("\x7b\"a\": [1, 2]\x7d") = "\x7b\"a\": [1, 2]\x7d" :=
  ⟨⟨by decide, by decide, by decide, by decide, by decide⟩,
   fix_identity_on_benign_strings _ (by decide) (by decide) (by decide) (by decide) (by decide)⟩

-- ============================================================================
-- callWithRetry (retry with exponential backoff and jitter)
-- ============================================================================

/-- Embedding of a JavaScript `Error` as thrown by the transport layer:
its `message` and optional `code` property (`ECONNRESET` etc.). -/
structure JSError where
  message : String
  code : Option String
deriving DecidableEq, Repr

/-- The retryable error codes of `isRetryableError`. -/
def retryableCodes : List String :=
  ["ECONNRESET", "ECONNABORTED", "ETIMEDOUT", "ENOTFOUND", "EPIPE", "EAI_AGAIN"]

/-- Matcher for the regex `/5\d\d/`: a `5` followed by two digits. -/
def has5xxPattern : List Char → Bool
  | [] => false
  | c :: rest =>
    (c = '5' &&
      (match rest with
       | a :: b :: _ => a.isDigit && b.isDigit
       | _ => false)) || has5xxPattern rest

/-- Embedding of `GLMService.isRetryableError`: a truthy `code` among the
retryable codes, or one of the case-insensitive message patterns
`socket hang up`, `timeout`, `network`, `fetch failed`, or `5\d\d`. -/
def isRetryableError (e : JSError) : Bool :=
  (match e.code with
   | some c => !(c == "") && retryableCodes.contains c
   | none => false) ||
  (containsSub (String.mk (e.message.data.map Char.toLower)) ("socket hang up") ||
   containsSub (String.mk (e.message.data.map Char.toLower)) ("timeout") ||
   containsSub (String.mk (e.message.data.map Char.toLower)) ("network") ||
   containsSub (String.mk (e.message.data.map Char.toLower)) ("fetch failed") ||
   has5xxPattern e.message.data)

/-- Error returned when the service is not initialized. -/
def notInitializedErr : AppErr :=
  ⟨"AI_NOT_INITIALIZED", .domain, .critical, "AI服务未初始化", "GLM service is not initialized"⟩

/-- Error returned for a message mentioning HTTP 401/403. -/
def authFailedErr (e : JSError) : AppErr :=
  ⟨"AI_AUTH_FAILED", .network, .critical, "API密钥无效或权限不足，请检查设置", e.message⟩

/-- Error returned for a message mentioning HTTP 400. -/
def badRequestErr (e : JSError) : AppErr :=
  ⟨"AI_BAD_REQUEST", .domain, .critical, "请求格式错误", e.message⟩

/-- Error returned for a non-retryable failure. -/
def nonRetryableErr (e : JSError) : AppErr :=
  ⟨"AI_REQUEST_FAILED", .network, .critical, "AI请求失败，请检查网络连接", e.message⟩

/-- Code-specific user message after exhausting all retries. -/
def exhaustedUserMessage (code : Option String) : String :=
  if code = some ("ECONNRESET") then "API连接被服务器中断，可能是服务器繁忙或请求过大，请稍后重试"
  else if code = some ("ETIMEDOUT") then "API请求超时，请检查网络连接或稍后重试"
  else if code = some ("ENOTFOUND") then "无法连接到API服务器，请检查网络设置"
  else "AI请求失败，请检查网络连接"

/-- Error returned after exhausting all retries. -/
def exhaustedErr (lastErr : Option JSError) : AppErr :=
  ⟨"AI_REQUEST_FAILED", .network, .critical,
    exhaustedUserMessage (lastErr.bind (fun e => e.code)),
    ((lastErr.map (fun e => e.message)).getD ("Unknown error"))⟩

/-- Observable outcome of one `callWithRetry` invocation: the result, the
number of calls of `fn`, the number of network requests actually issued by
those calls, and the inserted backoff delays (in ms, rational to carry the
real-valued jitter). -/
structure RetryOutcome where
  result : Res String
  fnCalls : Nat
  netCalls : Nat
  delays : List ℚ

/-- One step of the `for (attempt...)` loop of `callWithRetry`.  `fn i`
returns the attempt's outcome together with the number of network requests
it issued (0 when `callAPI` throws before the request).  `fuel` is
`maxRetries - attempt`; exhaustion of the loop reports the last error with a
code-specific user message. -/
def retryLoop (mR : Nat) (fn : Nat → Except JSError String × Nat) (jitter : Nat → ℚ) :
    Nat → Nat → Option JSError → Nat → Nat → List ℚ → RetryOutcome
  | _, 0, lastErr, calls, nets, delays => ⟨.err (exhaustedErr lastErr), calls, nets, delays⟩
  | attempt, fuel + 1, _, calls, nets, delays =>
    match fn attempt with
    | (.ok v, n) => ⟨.ok v, calls + 1, nets + n, delays⟩
    | (.error e, n) =>
      if containsSub e.message ("401") || containsSub e.message ("403") then
        ⟨.err (authFailedErr e), calls + 1, nets + n, delays⟩
      else if containsSub e.message ("400") then
        ⟨.err (badRequestErr e), calls + 1, nets + n, delays⟩
      else if !isRetryableError e then
        ⟨.err (nonRetryableErr e), calls + 1, nets + n, delays⟩
      else if attempt < mR - 1 then
        retryLoop mR fn jitter (attempt + 1) fuel (some e) (calls + 1) (nets + n)
          (delays ++ [1000 * 2 ^ attempt + jitter attempt])
      else
        retryLoop mR fn jitter (attempt + 1) fuel (some e) (calls + 1) (nets + n) delays

/-- Embedding of `GLMService.callWithRetry` (the rate-limiter wait that
precedes the loop affects timing only, not the outcome, and is modelled
separately).  `jitter attempt` stands for the `Math.random() * 500` draw. -/
def callWithRetryM (initialized : Bool) (mR : Nat) (fn : Nat → Except JSError String × Nat)
    (jitter : Nat → ℚ) : RetryOutcome :=
  if initialized then retryLoop mR fn jitter 0 mR none 0 0 []
  else ⟨.err notInitializedErr, 0, 0, []⟩

/-- Precheck-plus-transport embedding of `GLMService.callAPI` together with
`generateToken`: empty/blank key, key without a separator, and key that does
not split into exactly two segments all throw before any network request;
otherwise the transport is consulted and one network request is counted. -/
def apiKeyMissingErr : JSError := ⟨"API 密钥未设置", none⟩

/-- Error thrown by `callAPI` when the key has no separator. -/
def apiKeyFormatErr : JSError := ⟨"API 密钥格式无效", none⟩

/-- Error thrown by `generateToken` when the key does not split in two. -/
def apiKeySplitErr : JSError := ⟨"无效的API密钥格式", none⟩

/-- Split on a separator character, as `String.prototype.split` with a
one-character separator (the empty string splits to one empty segment). -/
def splitOnChar (sep : Char) : List Char → List (List Char)
  | [] => [[]]
  | c :: rest =>
    if c = sep then [] :: splitOnChar sep rest
    else
      match splitOnChar sep rest with
      | h :: t => (c :: h) :: t
      | [] => [[c]]

/-- Embedding of one `callAPI` invocation (see above). -/
def callAPIModel (apiKey : String) (transport : Nat → Except JSError String) (k : Nat) :
    Except JSError String × Nat :=
  if apiKey = "" || (trimChars apiKey.data).isEmpty then (.error apiKeyMissingErr, 0)
  else if !(apiKey.data.contains '.') then (.error apiKeyFormatErr, 0)
  else if (splitOnChar '.' apiKey.data).length ≠ 2 then (.error apiKeySplitErr, 0)
  else (transport k, 1)

/-- Transport failures that the retry loop retries: retryable per
`isRetryableError` and not carrying `401`/`403`/`400` in the message. -/
def retryableNetFailure (e : JSError) : Prop :=
  isRetryableError e = true ∧
  containsSub e.message ("401") = false ∧
  containsSub e.message ("403") = false ∧
  containsSub e.message ("400") = false
lemma retryLoop_step_ok (mR : Nat) (fn : Nat → Except JSError String × Nat) (jitter : Nat → ℚ)
    (attempt f : Nat) (lastErr : Option JSError) (calls nets : Nat) (delays : List ℚ)
    (v : String) (n : Nat) (h : fn attempt = (.ok v, n)) :
    retryLoop mR fn jitter attempt (f + 1) lastErr calls nets delays =
      ⟨.ok v, calls + 1, nets + n, delays⟩ := by
  simp [retryLoop, h]

lemma retryLoop_step_retryable (mR : Nat) (fn : Nat → Except JSError String × Nat)
    (jitter : Nat → ℚ) (attempt f : Nat) (lastErr : Option JSError) (calls nets : Nat)
    (delays : List ℚ) (e : JSError) (n : Nat)
    (h : fn attempt = (.error e, n)) (hrnf : retryableNetFailure e) (hlt : attempt < mR - 1) :
    retryLoop mR fn jitter attempt (f + 1) lastErr calls nets delays =
      retryLoop mR fn jitter (attempt + 1) f (some e) (calls + 1) (nets + n)
        (delays ++ [1000 * 2 ^ attempt + jitter attempt]) := by
  obtain ⟨hr, h1, h3, h4⟩ := hrnf
  simp [retryLoop, h, h1, h3, h4, hr, hlt]

lemma retryLoop_step_retryable_last (mR : Nat) (fn : Nat → Except JSError String × Nat)
    (jitter : Nat → ℚ) (attempt f : Nat) (lastErr : Option JSError) (calls nets : Nat)
    (delays : List ℚ) (e : JSError) (n : Nat)
    (h : fn attempt = (.error e, n)) (hrnf : retryableNetFailure e) (hge : ¬ attempt < mR - 1) :
    retryLoop mR fn jitter attempt (f + 1) lastErr calls nets delays =
      retryLoop mR fn jitter (attempt + 1) f (some e) (calls + 1) (nets + n) delays := by
  obtain ⟨hr, h1, h3, h4⟩ := hrnf
  simp [retryLoop, h, h1, h3, h4, hr, hge]

lemma retryLoop_step_auth (mR : Nat) (fn : Nat → Except JSError String × Nat)
    (jitter : Nat → ℚ) (attempt f : Nat) (lastErr : Option JSError) (calls nets : Nat)
    (delays : List ℚ) (e : JSError) (n : Nat)
    (h : fn attempt = (.error e, n))
    (hauth : (containsSub e.message ("401") || containsSub e.message ("403")) = true) :
    retryLoop mR fn jitter attempt (f + 1) lastErr calls nets delays =
      ⟨.err (authFailedErr e), calls + 1, nets + n, delays⟩ := by
  simp [retryLoop, h, hauth]

lemma retryLoop_step_nonretryable (mR : Nat) (fn : Nat → Except JSError String × Nat)
    (jitter : Nat → ℚ) (attempt f : Nat) (lastErr : Option JSError) (calls nets : Nat)
    (delays : List ℚ) (e : JSError) (n : Nat)
    (h : fn attempt = (.error e, n))
    (h401 : containsSub e.message ("401") = false)
    (h403 : containsSub e.message ("403") = false)
    (h400 : containsSub e.message ("400") = false)
    (hnr : isRetryableError e = false) :
    retryLoop mR fn jitter attempt (f + 1) lastErr calls nets delays =
      ⟨.err (nonRetryableErr e), calls + 1, nets + n, delays⟩ := by
  simp [retryLoop, h, h401, h403, h400, hnr]

lemma retryLoop_spec (mR k : Nat) (tr : Nat → Except JSError String) (jitter : Nat → ℚ)
    (hfail : ∀ i, i < k → i < mR → ∃ e, tr i = .error e ∧ retryableNetFailure e)
    (hsucc : k < mR → ∃ v, tr k = .ok v) :
    ∀ (fuel attempt calls nets : Nat) (delays : List ℚ) (lastErr : Option JSError),
      attempt + fuel = mR → attempt ≤ k →
      (retryLoop mR (fun i => (tr i, 1)) jitter attempt fuel lastErr calls nets delays).fnCalls
          = calls + (min mR (k + 1) - attempt) ∧
      (retryLoop mR (fun i => (tr i, 1)) jitter attempt fuel lastErr calls nets delays).netCalls
          = nets + (min mR (k + 1) - attempt) ∧
      (retryLoop mR (fun i => (tr i, 1)) jitter attempt fuel lastErr calls nets delays).delays
          = delays ++ (List.range' attempt (min (mR - 1) k - attempt)).map
              (fun i => 1000 * 2 ^ i + jitter i) ∧
      (k < mR → ∃ v,
        (retryLoop mR (fun i => (tr i, 1)) jitter attempt fuel lastErr calls nets delays).result
          = .ok v) ∧
      (mR ≤ k → ∃ e2,
        (retryLoop mR (fun i => (tr i, 1)) jitter attempt fuel lastErr calls nets delays).result
          = .err e2 ∧ e2.code = "AI_REQUEST_FAILED") := by
  intro fuel
  induction fuel with
  | zero =>
    intro attempt calls nets delays lastErr hsum hak
    have hattempt : attempt = mR := by omega
    have hk : mR ≤ k := by omega
    simp only [retryLoop]
    refine ⟨by omega, by omega, ?_, by omega, fun _ => ⟨exhaustedErr lastErr, rfl, rfl⟩⟩
    have : min (mR - 1) k - attempt = 0 := by omega
    simp [this]
  | succ f ih =>
    intro attempt calls nets delays lastErr hsum hak
    have hamr : attempt < mR := by omega
    by_cases hek : attempt = k
    · -- first success
      subst hek
      obtain ⟨v, hv⟩ := hsucc hamr
      rw [retryLoop_step_ok mR _ jitter attempt f lastErr calls nets delays v 1 (by simp [hv])]
      refine ⟨by simp; omega, by simp; omega, ?_, fun _ => ⟨v, rfl⟩, fun h => by omega⟩
      have : min (mR - 1) attempt - attempt = 0 := by omega
      simp [this]
    · -- retryable failure at this attempt
      have haklt : attempt < k := by omega
      obtain ⟨e, he, hrnf⟩ := hfail attempt haklt hamr
      by_cases hlt : attempt < mR - 1
      · rw [retryLoop_step_retryable mR _ jitter attempt f lastErr calls nets delays e 1
          (by simp [he]) hrnf hlt]
        obtain ⟨ih1, ih2, ih3, ih4, ih5⟩ := ih (attempt + 1) (calls + 1) (nets + 1)
          (delays ++ [1000 * 2 ^ attempt + jitter attempt]) (some e) (by omega) (by omega)
        refine ⟨by rw [ih1]; omega, by rw [ih2]; omega, ?_, ih4, ih5⟩
        rw [ih3]
        have hmin : min (mR - 1) k - attempt = (min (mR - 1) k - (attempt + 1)) + 1 := by omega
        rw [hmin, List.range'_succ]
        simp [List.append_assoc]
      · rw [retryLoop_step_retryable_last mR _ jitter attempt f lastErr calls nets delays e 1
          (by simp [he]) hrnf hlt]
        obtain ⟨ih1, ih2, ih3, ih4, ih5⟩ := ih (attempt + 1) (calls + 1) (nets + 1)
          delays (some e) (by omega) (by omega)
        refine ⟨by rw [ih1]; omega, by rw [ih2]; omega, ?_, ih4, ih5⟩
        rw [ih3]
        have h1 : min (mR - 1) k - attempt = 0 := by omega
        have h2 : min (mR - 1) k - (attempt + 1) = 0 := by omega
        simp [h1, h2]

/-- C4: for a transport whose failures are retryable network errors, the
retry loop makes exactly `min maxRetries (attempts until first success)`
transport calls; the delay inserted between attempt `i` and attempt `i+1` is
exactly `1000 * 2 ^ i + jitter i` with the jitter drawn from `[0, 500)`,
hence at least `1000 * 2 ^ i`; and when the first success happens within the
budget the overall result is Ok. -/
theorem retry_backoff_spec (mR k : Nat) (tr : Nat → Except JSError String) (jitter : Nat → ℚ)
    (hj : ∀ i, 0 ≤ jitter i ∧ jitter i < 500)
    (hfail : ∀ i, i < k → i < mR → ∃ e, tr i = .error e ∧ retryableNetFailure e)
    (hsucc : k < mR → ∃ v, tr k = .ok v) :
    (callWithRetryM true mR (fun i => (tr i, 1)) jitter).fnCalls = min mR (k + 1) ∧
    (callWithRetryM true mR (fun i => (tr i, 1)) jitter).delays =
      (List.range (min (mR - 1) k)).map (fun i => 1000 * 2 ^ i + jitter i) ∧
    (∀ i, i < (callWithRetryM true mR (fun i => (tr i, 1)) jitter).delays.length →
      (1000 * 2 ^ i : ℚ) ≤ (callWithRetryM true mR (fun i => (tr i, 1)) jitter).delays.getD i 0 ∧
      (callWithRetryM true mR (fun i => (tr i, 1)) jitter).delays.getD i 0 <
        1000 * 2 ^ i + 500) ∧
    (k < mR → ∃ v, (callWithRetryM true mR (fun i => (tr i, 1)) jitter).result = .ok v) := by
  have hcw : callWithRetryM true mR (fun i => (tr i, 1)) jitter =
      retryLoop mR (fun i => (tr i, 1)) jitter 0 mR none 0 0 [] := by
    simp [callWithRetryM]
  obtain ⟨h1, h2, h3, h4, h5⟩ :=
    retryLoop_spec mR k tr jitter hfail hsucc mR 0 0 0 [] none (by omega) (by omega)
  have hdelays : (callWithRetryM true mR (fun i => (tr i, 1)) jitter).delays =
      (List.range (min (mR - 1) k)).map (fun i => 1000 * 2 ^ i + jitter i) := by
    rw [hcw, h3]
    simp [List.range_eq_range']
  refine ⟨by rw [hcw, h1]; omega, hdelays, ?_, by rw [hcw]; exact h4⟩
  intro i hi
  rw [hdelays] at hi
  simp only [List.length_map, List.length_range] at hi
  rw [hdelays, List.getD_eq_getElem?_getD, List.getElem?_map, List.getElem?_range hi]
  simp only [Option.map_some', Option.getD_some]
  exact ⟨by linarith [(hj i).1], by linarith [(hj i).2]⟩

/-- Transport of the spec's end-to-end scenario 2: two connection resets and
then a success. -/
def ecTransport (i : Nat) : Except JSError String :=
  if i < 2 then .error ⟨"read ECONNRESET", some ("ECONNRESET")⟩ else .ok ("ok")

/-- Zero jitter draw (a legal value of `Math.random() * 500`). -/
def zeroJitter (_ : Nat) : ℚ := 0

theorem retry_backoff_spec_witness :
    (∀ i : Nat, (0:ℚ) ≤ zeroJitter i ∧ zeroJitter i < 500) ∧
    (callWithRetryM true 3 (fun i => (ecTransport i, 1)) zeroJitter).fnCalls = min 3 (2 + 1) ∧
    (2 < 3 → ∃ v, (callWithRetryM true 3 (fun i => (ecTransport i, 1)) zeroJitter).result
      = .ok v) := by
  have h := retry_backoff_spec 3 2 ecTransport zeroJitter
    (fun i => by constructor <;> simp [zeroJitter])
    (fun i h1 h2 => ⟨⟨"read ECONNRESET", some ("ECONNRESET")⟩, by simp [ecTransport, h1],
      by constructor
         · decide
         · exact ⟨by decide, by decide, by decide⟩⟩)
    (fun _ => ⟨"ok", by simp [ecTransport]⟩)
  exact ⟨fun i => by constructor <;> simp [zeroJitter], h.1, h.2.2.2⟩

/-- C5: a transport failure whose message mentions HTTP 401 or 403 stops the
loop at the first attempt: exactly one transport call, no backoff delay, and
an `AI_AUTH_FAILED` error of critical severity. -/
theorem auth_failure_no_retry (mR : Nat) (hmr : 1 ≤ mR)
    (fn : Nat → Except JSError String × Nat) (jitter : Nat → ℚ) (e : JSError) (n : Nat)
    (hfn : fn 0 = (.error e, n))
    (hauth : (containsSub e.message ("401") || containsSub e.message ("403")) = true) :
    callWithRetryM true mR fn jitter = ⟨.err (authFailedErr e), 1, n, []⟩ ∧
    (authFailedErr e).code = "AI_AUTH_FAILED" ∧
    (authFailedErr e).severity = .critical ∧
    (authFailedErr e).category = .network := by
  obtain ⟨m, rfl⟩ : ∃ m, mR = m + 1 := ⟨mR - 1, by omega⟩
  refine ⟨?_, rfl, rfl, rfl⟩
  have hcw : callWithRetryM true (m + 1) fn jitter =
      retryLoop (m + 1) fn jitter 0 (m + 1) none 0 0 [] := by
    simp [callWithRetryM]
  rw [hcw, retryLoop_step_auth (m + 1) fn jitter 0 m none 0 0 [] e n hfn hauth]
  norm_num

/-- Transport error of a simulated HTTP 401 response (message as built by
`callAPI` for a non-200 status). -/
def authTransportErr : JSError := ⟨"API returned status 401: unauthorized", none⟩

theorem auth_failure_no_retry_witness :
    (1 ≤ 3 ∧ (fun _ : Nat => ((.error authTransportErr : Except JSError String), 1)) 0
        = (.error authTransportErr, 1) ∧
      (containsSub authTransportErr.message ("401")
        || containsSub authTransportErr.message ("403")) = true) ∧
    callWithRetryM true 3 (fun _ => (.error authTransportErr, 1)) (fun _ => 0) =
      ⟨.err (authFailedErr authTransportErr), 1, 1, []⟩ :=
  ⟨⟨by decide, rfl, by decide⟩,
   (auth_failure_no_retry 3 (by decide) _ _ authTransportErr 1 rfl (by decide)).1⟩

lemma callAPIModel_badkey (apiKey : String) (transport : Nat → Except JSError String)
    (hkey : (splitOnChar '.' apiKey.data).length ≠ 2) :
    ∃ e0, (e0 = apiKeyMissingErr ∨ e0 = apiKeyFormatErr ∨ e0 = apiKeySplitErr) ∧
      ∀ i, callAPIModel apiKey transport i = (.error e0, 0) := by
  by_cases h1 : (apiKey = "" || (trimChars apiKey.data).isEmpty) = true
  · refine ⟨apiKeyMissingErr, Or.inl rfl, fun i => ?_⟩
    unfold callAPIModel
    rw [if_pos h1]
  · by_cases h2 : apiKey.data.contains '.' = true
    · refine ⟨apiKeySplitErr, Or.inr (Or.inr rfl), fun i => ?_⟩
      unfold callAPIModel
      rw [if_neg h1, if_neg (by simpa using h2), if_pos hkey]
    · refine ⟨apiKeyFormatErr, Or.inr (Or.inl rfl), fun i => ?_⟩
      unfold callAPIModel
      rw [if_neg h1, if_pos (by simpa using h2)]

/-- C7 (amended): with any key that does not split into exactly two
segments on the separator, every call through the retry loop makes zero
network requests (fail-fast before the HTTPS request) and returns a typed
error after a single attempt — but the error surfaced is the generic
`AI_REQUEST_FAILED` (network category), not a credential/auth error. -/
theorem malformed_key_fails_fast_no_network (apiKey : String) (mR : Nat)
    (transport : Nat → Except JSError String) (jitter : Nat → ℚ)
    (hmr : 1 ≤ mR)
    (hkey : (splitOnChar '.' apiKey.data).length ≠ 2) :
    (callWithRetryM true mR (fun i => callAPIModel apiKey transport i) jitter).netCalls = 0 ∧
    (callWithRetryM true mR (fun i => callAPIModel apiKey transport i) jitter).fnCalls = 1 ∧
    ∃ e, (callWithRetryM true mR (fun i => callAPIModel apiKey transport i) jitter).result
        = .err e ∧ e.code = "AI_REQUEST_FAILED" := by
  obtain ⟨m, rfl⟩ : ∃ m, mR = m + 1 := ⟨mR - 1, by omega⟩
  obtain ⟨e0, he0, hcall⟩ := callAPIModel_badkey apiKey transport hkey
  have hnr : containsSub e0.message ("401") = false ∧ containsSub e0.message ("403") = false ∧
      containsSub e0.message ("400") = false ∧ isRetryableError e0 = false := by
    rcases he0 with h | h | h <;> subst h <;> exact ⟨by decide, by decide, by decide, by decide⟩
  have hcw : callWithRetryM true (m + 1) (fun i => callAPIModel apiKey transport i) jitter =
      retryLoop (m + 1) (fun i => callAPIModel apiKey transport i) jitter 0 (m + 1) none 0 0 [] := by
    simp [callWithRetryM]
  rw [hcw, retryLoop_step_nonretryable (m + 1) _ jitter 0 m none 0 0 [] e0 0 (hcall 0)
    hnr.1 hnr.2.1 hnr.2.2.1 hnr.2.2.2]
  exact ⟨rfl, rfl, nonRetryableErr e0, rfl, rfl⟩

theorem malformed_key_fails_fast_no_network_witness :
    (1 ≤ 3 ∧ (splitOnChar '.' ("abc").data).length ≠ 2) ∧
    (callWithRetryM true 3 (fun i => callAPIModel ("abc") (fun _ => .ok ("x")) i)
      (fun _ => 0)).netCalls = 0 :=
  ⟨⟨by decide, by decide⟩,
   (malformed_key_fails_fast_no_network ("abc") 3 (fun _ => .ok ("x")) (fun _ => 0)
     (by decide) (by decide)).1⟩

/-- C7 (counterexample to the attribution part of the claim): with key
`"abc"` (no separator) the call fails fast with zero network requests, but
the typed error is `AI_REQUEST_FAILED` — the generic network-failure code,
none of the credential/auth codes (`AI_NOT_INITIALIZED`, `AI_AUTH_FAILED`,
`AI_NO_API_KEY`), because the format error thrown by `callAPI` is caught by
`callWithRetry`'s generic non-retryable branch. -/
theorem malformed_key_error_code_counterexample :
    (callWithRetryM true 3 (fun i => callAPIModel ("abc") (fun _ => .ok ("x")) i)
        (fun _ => 0)).result = .err (nonRetryableErr apiKeyFormatErr) ∧
    (nonRetryableErr apiKeyFormatErr).code = "AI_REQUEST_FAILED" ∧
    (nonRetryableErr apiKeyFormatErr).code ≠ "AI_AUTH_FAILED" ∧
    (nonRetryableErr apiKeyFormatErr).code ≠ "AI_NOT_INITIALIZED" ∧
    (nonRetryableErr apiKeyFormatErr).code ≠ "AI_NO_API_KEY" ∧
    (nonRetryableErr apiKeyFormatErr).category = .network ∧
    (callWithRetryM true 3 (fun i => callAPIModel ("abc") (fun _ => .ok ("x")) i)
        (fun _ => 0)).netCalls = 0 :=
  ⟨rfl, rfl, by decide, by decide, by decide, rfl, rfl⟩

-- ============================================================================
-- Output transformation (JavaScript dynamic semantics) and operation models
-- ============================================================================

/-- Whether a JSON number literal denotes zero (its mantissa digits are all
zero), for JavaScript falsiness. -/
def numLitZero (lit : String) : Bool :=
  (lit.data.takeWhile (fun c => c ≠ 'e' ∧ c ≠ 'E')).all (fun c => c = '0' || c = '-' || c = '.')

/-- JavaScript falsiness of a parsed JSON value (arrays and objects are
always truthy). -/
def jsFalsy : JSON → Bool
  | .null => true
  | .bool b => !b
  | .num lit => numLitZero lit
  | .str s => s = ""
  | .arr _ => false
  | .obj _ => false

/-- Last-wins field lookup, as `JSON.parse` builds objects with duplicate
keys. -/
def lookupField (fields : List (String × JSON)) (k : String) : Option JSON :=
  fields.foldl (fun acc p => if p.1 = k then some p.2 else acc) none

/-- JavaScript property access `data.k` on a parsed JSON value: throws a
TypeError on `null`, is `undefined` (`none`) when the key is absent or the
value is not an object. -/
def jsGet (j : JSON) (k : String) : Except JSError (Option JSON) :=
  match j with
  | .null => .error ⟨"TypeError: Cannot read properties of null", none⟩
  | .obj fields => .ok (lookupField fields k)
  | _ => .ok none

/-- JavaScript `(v || []).map`: `undefined` and falsy values yield `[]`;
an array maps; a truthy non-array value throws (`.map` is not a function). -/
def orEmptyList (v : Option JSON) : Except JSError (List JSON) :=
  match v with
  | none => .ok []
  | some j =>
    if jsFalsy j then .ok []
    else
      match j with
      | .arr xs => .ok xs
      | _ => .error ⟨"TypeError: map is not a function", none⟩

/-- Fields accessed from one medication item by `recognizeMedications`
(the generated `id`, the `Date` conversions and the `_aiRecognized` stamp
cannot throw and are not modelled). -/
structure MedOut where
  medicationName : Option JSON
  dosage : Option JSON
  frequency : Option JSON
  route : Option JSON
  startDate : Option JSON
  endDate : Option JSON
  indication : Option JSON
  confidence : Option JSON

/-- Per-item transformation of `recognizeMedications` (property accesses on
a `null` item throw). -/
def medItem (j : JSON) : Except JSError MedOut := do
  let mn ← jsGet j ("medicationName")
  let d ← jsGet j ("dosage")
  let f ← jsGet j ("frequency")
  let r ← jsGet j ("route")
  let sd ← jsGet j ("startDate")
  let ed ← jsGet j ("endDate")
  let ind ← jsGet j ("indication")
  let conf ← jsGet j ("confidence")
  pure ⟨mn, d, f, r, sd, ed, ind, conf⟩

/-- The `(data.medications || []).map(...)` transformation. -/
def medicationsTransform (data : JSON) : Except JSError (List MedOut) := do
  let v ← jsGet data ("medications")
  let xs ← orEmptyList v
  xs.mapM medItem

/-- The `ok(parseResult.data.subjectNumber || '')` transformation. -/
def subjectNumberTransform (data : JSON) : Except JSError JSON := do
  let v ← jsGet data ("subjectNumber")
  pure (match v with
        | none => .str ""
        | some j => if jsFalsy j then .str "" else j)

/-- The `ok(parseResult.data.visits || [])` transformation. -/
def visitDatesTransform (data : JSON) : Except JSError JSON := do
  let v ← jsGet data ("visits")
  pure (match v with
        | none => .arr []
        | some j => if jsFalsy j then .arr [] else j)

/-- Embedding of `GLMService.recognizeMedications` from the transport on:
`Except.error` is an exception escaping the async method (a rejected
promise), `Except.ok` carries the typed `Result` handed to the caller. -/
def recognizeMedicationsM (initialized : Bool) (mR : Nat)
    (fn : Nat → Except JSError String × Nat) (jitter : Nat → ℚ) :
    Except JSError (Res (List MedOut)) :=
  match (callWithRetryM initialized mR fn jitter).result with
  | .err e => .ok (.err e)
  | .ok response =>
    match parseJSONResponseM response with
    | .err e => .ok (.err e)
    | .ok data =>
      match medicationsTransform data with
      | .error te => .error te
      | .ok meds => .ok (.ok meds)

/-- Embedding of `GLMService.extractSubjectNumber` from the transport on. -/
def extractSubjectNumberM (initialized : Bool) (mR : Nat)
    (fn : Nat → Except JSError String × Nat) (jitter : Nat → ℚ) :
    Except JSError (Res JSON) :=
  match (callWithRetryM initialized mR fn jitter).result with
  | .err e => .ok (.err e)
  | .ok response =>
    match parseJSONResponseM response with
    | .err e => .ok (.err e)
    | .ok data =>
      match subjectNumberTransform data with
      | .error te => .error te
      | .ok v => .ok (.ok v)

/-- Embedding of `GLMService.extractSubjectVisitDates` from the transport
on. -/
def extractSubjectVisitDatesM (initialized : Bool) (mR : Nat)
    (fn : Nat → Except JSError String × Nat) (jitter : Nat → ℚ) :
    Except JSError (Res JSON) :=
  match (callWithRetryM initialized mR fn jitter).result with
  | .err e => .ok (.err e)
  | .ok response =>
    match parseJSONResponseM response with
    | .err e => .ok (.err e)
    | .ok data =>
      match visitDatesTransform data with
      | .error te => .error te
      | .ok v => .ok (.ok v)

/-- C6: a transport response that parses as valid JSON but carries a
non-array `medications` value makes `(data.medications || []).map` throw a
TypeError inside `recognizeMedications`, so the exception escapes the
operation as a rejected promise instead of a typed error Result. -/
theorem shape_mismatch_exception_escapes :
    recognizeMedicationsM true 3 (fun _ => (.ok ("\x7b\"medications\": 5\x7d"), 1)) (fun _ => 0)
      = .error ⟨"TypeError: map is not a function", none⟩ ∧
    parseJSONResponseM ("\x7b\"medications\": 5\x7d")
      = .ok (JSON.obj [("medications", JSON.num ("5"))]) :=
  ⟨rfl, rfl⟩

/-- C8: when the parse path yields a JSON object that lacks the expected
top-level key, the extraction operations return Ok with the empty default
(empty list for medications and visits, empty string for the subject
number) rather than a ParseFailed error. -/
theorem missing_key_defaults_ok (mR : Nat) (fn : Nat → Except JSError String × Nat)
    (jitter : Nat → ℚ) (response : String) (fields : List (String × JSON))
    (hmr : 1 ≤ mR)
    (hfn : fn 0 = (.ok response, 1))
    (hparse : parseJSONResponseM response = .ok (JSON.obj fields))
    (hmed : lookupField fields ("medications") = none)
    (hsub : lookupField fields ("subjectNumber") = none)
    (hvis : lookupField fields ("visits") = none) :
    recognizeMedicationsM true mR fn jitter = .ok (.ok []) ∧
    extractSubjectNumberM true mR fn jitter = .ok (.ok (JSON.str "")) ∧
    extractSubjectVisitDatesM true mR fn jitter = .ok (.ok (JSON.arr [])) := by
  obtain ⟨m, rfl⟩ : ∃ m, mR = m + 1 := ⟨mR - 1, by omega⟩
  have hcall : callWithRetryM true (m + 1) fn jitter = ⟨.ok response, 0 + 1, 0 + 1, []⟩ := by
    have hcw : callWithRetryM true (m + 1) fn jitter =
        retryLoop (m + 1) fn jitter 0 (m + 1) none 0 0 [] := by
      simp [callWithRetryM]
    rw [hcw, retryLoop_step_ok (m + 1) fn jitter 0 m none 0 0 [] response 1 hfn]
  refine ⟨?_, ?_, ?_⟩
  · simp [recognizeMedicationsM, hcall, hparse, medicationsTransform, jsGet, hmed, orEmptyList,
      Except.bind, Bind.bind, List.mapM, List.mapM.loop, Except.pure, Pure.pure]
  · simp [extractSubjectNumberM, hcall, hparse, subjectNumberTransform, jsGet, hsub,
      Except.bind, Bind.bind, Except.pure, Pure.pure]
  · simp [extractSubjectVisitDatesM, hcall, hparse, visitDatesTransform, jsGet, hvis,
      Except.bind, Bind.bind, Except.pure, Pure.pure]

theorem missing_key_defaults_ok_witness :
    (1 ≤ 3 ∧
     parseJSONResponseM ("\x7b\"foo\": 1\x7d") = .ok (JSON.obj [("foo", JSON.num ("1"))]) ∧
     lookupField [("foo", JSON.num ("1"))] ("medications") = none ∧
     lookupField [("foo", JSON.num ("1"))] ("subjectNumber") = none ∧
     lookupField [("foo", JSON.num ("1"))] ("visits") = none) ∧
    recognizeMedicationsM true 3 (fun _ => (.ok ("\x7b\"foo\": 1\x7d"), 1)) (fun _ => 0)
      = .ok (.ok []) :=
  ⟨⟨by decide, rfl, rfl, rfl, rfl⟩,
   (missing_key_defaults_ok 3 (fun _ => (.ok ("\x7b\"foo\": 1\x7d"), 1)) (fun _ => 0)
     ("\x7b\"foo\": 1\x7d") [("foo", JSON.num ("1"))]
     (by decide) rfl rfl rfl rfl rfl).1⟩

-- ============================================================================
-- Configuration, initialization and the module-level singleton
-- ============================================================================

/-- Embedding of the `GLMConfig` interface (optional fields are `Option`). -/
structure GLMConfigM where
  apiKey : String
  model : Option String
  temperature : Option ℚ
  topP : Option ℚ
  maxTokens : Option Nat
  timeout : Option Nat
  maxRetries : Option Nat
  maxRequestsPerMinute : Option Nat
  proxy : Option String
deriving DecidableEq, Repr

/-- JavaScript `v || d` for an optional string (absent or empty falls back). -/
def orDefaultStr (v : Option String) (d : String) : String :=
  match v with
  | some s => if s = "" then d else s
  | none => d

/-- JavaScript `v || d` for an optional number (absent or zero falls back). -/
def orDefaultQ (v : Option ℚ) (d : ℚ) : ℚ :=
  match v with
  | some q => if q = 0 then d else q
  | none => d

/-- JavaScript `v || d` for an optional natural (absent or zero falls back). -/
def orDefaultNat (v : Option Nat) (d : Nat) : Nat :=
  match v with
  | some n => if n = 0 then d else n
  | none => d

/-- The `Required<GLMConfig>` held by a constructed service. -/
structure ResolvedConfig where
  apiKey : String
  model : String
  temperature : ℚ
  topP : ℚ
  maxTokens : Nat
  timeout : Nat
  maxRetries : Nat
  maxRequestsPerMinute : Nat
  proxy : String
deriving DecidableEq, Repr

/-- Config resolution performed by the `GLMService` constructor. -/
def resolveConfig (c : GLMConfigM) : ResolvedConfig :=
  ⟨c.apiKey,
   orDefaultStr c.model ("glm-4"),
   orDefaultQ c.temperature (3 / 10),
   orDefaultQ c.topP (7 / 10),
   orDefaultNat c.maxTokens 10000,
   orDefaultNat c.timeout 120000,
   orDefaultNat c.maxRetries 3,
   orDefaultNat c.maxRequestsPerMinute 60,
   orDefaultStr c.proxy ("")⟩

/-- Observable state of a `GLMService` instance. -/
structure ServiceModel where
  config : ResolvedConfig
  initialized : Bool
deriving DecidableEq, Repr

/-- The `new GLMService(config)` constructor. -/
def mkGLMService (c : GLMConfigM) : ServiceModel := ⟨resolveConfig c, false⟩

/-- Embedding of the module-level `createGLMService`: `inst` is the current
`glmServiceInstance` (`none` before the first call); returns the instance
handed to the caller and the new module state. -/
def createGLMServiceM (inst : Option ServiceModel) (c : GLMConfigM) :
    ServiceModel × Option ServiceModel :=
  match inst with
  | none => (mkGLMService c, some (mkGLMService c))
  | some s => (s, some s)

/-- C9: `createGLMService` is first-call-wins — once a singleton exists,
any later call returns the same instance with the first call's resolved
configuration; the second configuration never takes effect. -/
theorem singleton_first_call_wins (c1 c2 : GLMConfigM) :
    (createGLMServiceM ((createGLMServiceM none c1).2) c2).1 = (createGLMServiceM none c1).1 ∧
    (createGLMServiceM ((createGLMServiceM none c1).2) c2).2 = (createGLMServiceM none c1).2 ∧
    (createGLMServiceM ((createGLMServiceM none c1).2) c2).1.config = resolveConfig c1 :=
  ⟨rfl, rfl, rfl⟩

/-- Embedding of `GLMService.initialize`: only emptiness of the key is
checked; on success the service is marked initialized. -/
def initializeM (s : ServiceModel) : Res Unit × ServiceModel :=
  if s.config.apiKey = "" then
    (.err ⟨"AI_NO_API_KEY", .domain, .critical, "请先设置GLM-4 API密钥", "API key is not configured"⟩, s)
  else (.ok (), ⟨s.config, true⟩)

/-- Embedding of `GLMService.updateApiKey`: store the key, clear the
initialized flag, and re-run `initialize`. -/
def updateApiKeyM (s : ServiceModel) (k : String) : Res Unit × ServiceModel :=
  initializeM ⟨{ s.config with apiKey := k }, false⟩

/-- C10: `initialize` succeeds for every non-empty key (separator or not)
and `updateApiKey` with any non-empty key re-initializes successfully; the
`id.secret` format is only enforced inside `callAPI` at request time, where
a separator-free key throws before any network request. -/
theorem initialize_accepts_any_nonempty_key (s : ServiceModel) (k : String) (hk : k ≠ "")
    (transport : Nat → Except JSError String) (i : Nat) :
    ((updateApiKeyM s k).1 = .ok () ∧ (updateApiKeyM s k).2.initialized = true ∧
      (updateApiKeyM s k).2.config.apiKey = k) ∧
    (∀ c : ResolvedConfig, c.apiKey = k →
      (initializeM ⟨c, false⟩).1 = .ok () ∧ (initializeM ⟨c, false⟩).2.initialized = true) ∧
    (k.data.contains '.' = false →
      callAPIModel k transport i = (.error apiKeyFormatErr, 0) ∨
      callAPIModel k transport i = (.error apiKeyMissingErr, 0)) := by
  refine ⟨?_, ?_, ?_⟩
  · unfold updateApiKeyM initializeM
    rw [if_neg (by simpa using hk)]
    exact ⟨rfl, rfl, rfl⟩
  · intro c hc
    unfold initializeM
    rw [if_neg (by simpa [hc] using hk)]
    exact ⟨rfl, rfl⟩
  · intro hdot
    unfold callAPIModel
    by_cases h1 : (k = "" || (trimChars k.data).isEmpty) = true
    · right
      rw [if_pos h1]
    · left
      rw [if_neg h1, if_pos (by simpa using hdot)]

theorem initialize_accepts_any_nonempty_key_witness :
    (("abc" : String) ≠ "" ∧ ("abc" : String).data.contains '.' = false) ∧
    (updateApiKeyM ⟨resolveConfig ⟨"old", none, none, none, none, none, none, none, none⟩, true⟩
        ("abc")).1 = .ok () ∧
    (updateApiKeyM ⟨resolveConfig ⟨"old", none, none, none, none, none, none, none, none⟩, true⟩
        ("abc")).2.initialized = true :=
  ⟨⟨by decide, by decide⟩,
   (initialize_accepts_any_nonempty_key
     ⟨resolveConfig ⟨"old", none, none, none, none, none, none, none, none⟩, true⟩
     ("abc") (by decide) (fun _ => .ok ("x")) 0).1.1,
   (initialize_accepts_any_nonempty_key
     ⟨resolveConfig ⟨"old", none, none, none, none, none, none, none, none⟩, true⟩
     ("abc") (by decide) (fun _ => .ok ("x")) 0).1.2.1⟩
